import Mathlib

/-!
Verification of the storage decoder-chain subsystem of crash-python
(`crash/subsystem/storage/decoders.py`) and of the configuration-cache
collaborator (`crash/cache/syscache.py`), as a shallow embedding in Lean 4.

Machine integers (addresses, dispatch keys) are modelled as `Nat`; a
`gdb.Value` field read that may raise `gdb.NotAvailableError` is modelled
as a `FieldRead` (whose `notAvailable` case is the unavailable-memory
failure).  Python exceptions that the code catches are modelled by the
corresponding branches of the embedded definitions.
-/

/- The result of reading an integer-valued field out of a `gdb.Value`:
either the value, or the read raised `gdb.NotAvailableError` because the
backing memory is not present in the image. -/
inductive FieldRead where
  | ok (n : Nat)
  | notAvailable
  deriving DecidableEq, Repr

/- ## Kernel object snapshots (`gdb.Value` handles)

A `struct bio` handle, as `decode_bio` and the built-in bio decoders see
it: its address (`int(bio)`), the result of reading `bio['bi_end_io']`
(which may fail with `gdb.NotAvailableError`), and the display renderings
used by `GenericBioDecoder.__str__` (the block-device name of
`bio['bi_bdev']` and the printed form of `bio['bi_end_io']`). -/
structure BioVal where
  addr : Nat
  biEndIO : FieldRead
  biBdevName : String
  biEndIOStr : String
  deriving DecidableEq, Repr

/- A `struct buffer_head` handle, as `decode_bh` and the built-in
buffer_head decoders see it: its address, the result of reading
`bh['b_end_io']`, and the fields used by `GenericBHDecoder`
(`block_device_name(bh['b_bdev'])`, `bh['b_blocknr']`, `bh['b_size']`). -/
structure BHVal where
  addr : Nat
  bEndIO : FieldRead
  bBdevName : String
  bBlocknr : Nat
  bSize : Nat
  deriving DecidableEq, Repr

/- The argument a registered decoder factory receives: `decode_bio`
passes the bio, `decode_bh` passes the buffer_head. -/
inductive KVal where
  | bio (b : BioVal)
  | bh (b : BHVal)
  deriving DecidableEq, Repr

/- ## Decoder instances

The `Decoder` instances that can come out of `decode_bio`/`decode_bh` and
take part in a chain walk.  The four built-in variants are the fallbacks
defined in `decoders.py`; `customNext`/`customEnd` stand for an instance
of a registered subsystem-specific `Decoder` subclass, characterised by
the behaviour of its `__str__` and `__next__` methods:
`customNext desc d` is a decoder whose `__next__` returns the decoder
`d`; `customEnd desc stop` is a decoder whose `__next__` returns `None`
(when `stop = false`, the inherited base implementation) or raises
`StopIteration` (when `stop = true`).  The built-in variants do not
override `__next__`, so they inherit the base implementation, which
returns `None`. -/
inductive Decoder where
  | badBio (bio : BioVal)
  | genericBio (bio : BioVal)
  | badBH (bh : BHVal)
  | genericBH (bh : BHVal)
  | customNext (desc : String) (d : Decoder)
  | customEnd (desc : String) (stop : Bool)
  deriving DecidableEq, Repr

/- Python's `"{:x}".format(n)`: lowercase hexadecimal rendering. -/
def hexStr (n : Nat) : String :=
  String.mk (Nat.toDigits 16 n)

/- `__str__` of each decoder variant, translated from the
`_description.format(...)` calls in `decoders.py`:
  `BadBioDecoder`:     `"{:x} bio: invalid bio"`
  `GenericBioDecoder`: `"{:x} bio: undecoded bio on {} ({})"`
  `BadBHDecoder`:      `"{:x} bh: invalid buffer_head"`
  `GenericBHDecoder`:  `"{:x} buffer_head: for dev {}, block {}, size {} (undecoded)"` -/
def Decoder.descr : Decoder → String
  | .badBio bio => hexStr bio.addr ++ " bio: invalid bio"
  | .genericBio bio =>
      hexStr bio.addr ++ " bio: undecoded bio on " ++ bio.biBdevName ++
        " (" ++ bio.biEndIOStr ++ ")"
  | .badBH bh => hexStr bh.addr ++ " bh: invalid buffer_head"
  | .genericBH bh =>
      hexStr bh.addr ++ " buffer_head: for dev " ++ bh.bBdevName ++
        ", block " ++ toString bh.bBlocknr ++ ", size " ++ toString bh.bSize ++
        " (undecoded)"
  | .customNext desc _ => desc
  | .customEnd desc _ => desc

/- The decoder `__next__` yields for the walk to continue with, if any:
`some d` when `__next__` returns the decoder `d`, `none` when it returns
`None` (the base implementation, inherited by all four built-in variants)
or raises `StopIteration` — both of which end the walk in
`for_each_bio_in_stack`. -/
def Decoder.yieldsNext : Decoder → Option Decoder
  | .customNext _ d => some d
  | _ => none

/- ## The decoder registry (`_decoders` dict plus deferred registrations)

A `gdb.Value` for a function: `int(v.address)` is the function's entry
address. -/
structure GdbValue where
  address : Nat
  deriving DecidableEq, Repr

/- A `gdb.Symbol`: `sym.value()` is its `gdb.Value`. -/
structure GdbSymbol where
  value : GdbValue
  deriving DecidableEq, Repr

/- The `EndIOSpecifier` union accepted by `register_decoder`:
`Union[int, str, List[str], gdb.Value, gdb.Symbol]`. -/
inductive EndIOSpec where
  | int (n : Nat)
  | name (s : String)
  | names (l : List String)
  | value (v : GdbValue)
  | symbol (s : GdbSymbol)
  deriving Repr

/- A decoder factory: the class registered in `_decoders`, applied to the
object being decoded (`_decoders[key](bio)`). -/
def Factory : Type := KVal → Decoder

/- The Python `dict` `_decoders: Dict[int, Type[Decoder]]`: an
insertion-ordered association list with unique keys; assignment
`d[k] = v` replaces the value in place when `k` is present and appends
otherwise. -/
def dictInsert : List (Nat × Factory) → Nat → Factory → List (Nat × Factory)
  | [], k, v => [(k, v)]
  | (k', v') :: rest, k, v =>
      if k' = k then (k, v) :: rest else (k', v') :: dictInsert rest k v

/- `d[k]` lookup, with `none` for the `KeyError` case. -/
def dictLookup : List (Nat × Factory) → Nat → Option Factory
  | [], _ => none
  | (k', v') :: rest, k => if k' = k then some v' else dictLookup rest k

/- The registry state: the resolved table `_decoders`, together with the
deferred registrations (one `SymbolCallback(name, ...)` subscription per
still-unresolved symbol name, each holding the factory it will register
when the symbol resolves). -/
structure RegState where
  decoders : List (Nat × Factory)
  pending : List (String × Factory)

/- The key normalisation performed by `register_decoder` once the
specifier is resolvable: a `gdb.Symbol` is first converted to its value
(`endio = endio.value()`), then a `gdb.Value` is converted to the integer
address of that value (`endio = int(endio.address)`), and an `int` is
used as-is. -/
def endioToKey : EndIOSpec → Nat
  | .symbol sym => sym.value.address
  | .value v => v.address
  | .int n => n
  | _ => 0

/- `register_decoder(endio, decoder)`:
  - a `str` subscribes a `SymbolCallback` that re-invokes
    `register_decoder` with the resolved symbol once it is available, and
    returns without touching `_decoders`;
  - a `List[str]` does the same for each alias name;
  - otherwise the key is normalised (`endioToKey`) and the factory is
    stored with `_decoders[endio] = decoder`, silently overwriting any
    previous entry for that key. -/
def register_decoder (st : RegState) (endio : EndIOSpec) (f : Factory) : RegState :=
  match endio with
  | .name s => { st with pending := st.pending ++ [(s, f)] }
  | .names l => { st with pending := st.pending ++ l.map (fun s => (s, f)) }
  | e => { st with decoders := dictInsert st.decoders (endioToKey e) f }

/-- Modelled from the spec: the `SymbolCallback` notification mechanism
(`crash/infra/lookup.py`, not part of the sources at hand).  The spec
describes it as `onSymbolResolved(name, callback)`, fired at most once
per name when the host learns the symbol's address; each subscription
made by `register_decoder` for `name` then re-invokes `register_decoder`
with the resolved symbol (whose value's address is the function's entry
address) and the same factory.  Firing consumes the matching
subscriptions (one-shot). -/
def fireSymbol (st : RegState) (name : String) (sym : GdbSymbol) : RegState :=
  let matched := st.pending.filter (fun p => p.1 == name)
  let remaining := st.pending.filter (fun p => !(p.1 == name))
  matched.foldl (fun s p => register_decoder s (.symbol sym) p.2)
    { st with pending := remaining }

/- ## Dispatch (`decode_bio` / `decode_bh`)

`decode_bio(bio)`: evaluate `_decoders[int(bio['bi_end_io'])](bio)`;
`gdb.NotAvailableError` from the field read yields a `BadBioDecoder`,
`KeyError` from the table lookup yields a `GenericBioDecoder`. -/
def decode_bio (tbl : List (Nat × Factory)) (bio : BioVal) : Decoder :=
  match bio.biEndIO with
  | .notAvailable => .badBio bio
  | .ok key =>
      match dictLookup tbl key with
      | some f => f (.bio bio)
      | none => .genericBio bio

/- `decode_bh(bh)`: same shape over `bh['b_end_io']`, falling back to
`GenericBHDecoder` / `BadBHDecoder`. -/
def decode_bh (tbl : List (Nat × Factory)) (bh : BHVal) : Decoder :=
  match bh.bEndIO with
  | .notAvailable => .badBH bh
  | .ok key =>
      match dictLookup tbl key with
      | some f => f (.bh bh)
      | none => .genericBH bh

/- ## The chain walk (`for_each_bio_in_stack`)

The loop body after the initial `decode_bio`: yield the current decoder,
then call `next(decoder)`; a returned decoder continues the walk, while
a returned `None` (the `while` condition) or a raised `StopIteration`
(the `except` clause) ends it. -/
def walkFrom : Decoder → List Decoder
  | .customNext desc d => .customNext desc d :: walkFrom d
  | d => [d]

/- `for_each_bio_in_stack(bio)`: the sequence of decoders the generator
yields, starting from `decode_bio(bio)`. -/
def for_each_bio_in_stack (tbl : List (Nat × Factory)) (bio : BioVal) : List Decoder :=
  walkFrom (decode_bio tbl bio)

/- The number of wrapped layers below a decoder: how many successive
decoders yield a further decoder from `__next__` before one yields
none. -/
def chainDepth : Decoder → Nat
  | .customNext _ d => chainDepth d + 1
  | _ => 0

/- Adjacency check on a walk result: every yielded decoder after the
first is exactly what the previous one's `__next__` yielded, and the
last one's `__next__` yields no decoder — i.e. the walk never goes past
the first decoder whose `__next__` returns none. -/
def walkLinked : List Decoder → Bool
  | [] => true
  | [d] => decide (d.yieldsNext = none)
  | d :: d' :: rest => decide (d.yieldsNext = some d') && walkLinked (d' :: rest)

/- ## Substring containment (for `describe()` content claims)

`startsWithSeq l p`: `p` is a prefix of `l`. -/
def startsWithSeq : List Char → List Char → Bool
  | _, [] => true
  | [], _ :: _ => false
  | a :: as, b :: bs => a == b && startsWithSeq as bs

/- `hasSubSeq sub l`: `sub` occurs contiguously somewhere in `l`. -/
def hasSubSeq (sub : List Char) : List Char → Bool
  | [] => sub.isEmpty
  | a :: t => startsWithSeq (a :: t) sub || hasSubSeq sub t

/- `hasSubStr s sub`: `sub` occurs in the string `s`. -/
def hasSubStr (s sub : String) : Bool :=
  hasSubSeq sub.data s.data

/- ## Memory-read effects

An event recording one memory-image read performed by decoder code: the
read of field `field` of the object at `objAddr`. -/
inductive ReadEvent where
  | readField (objAddr : Nat) (field : String)
  deriving DecidableEq, Repr

/- The reads performed by each variant's `__str__`, read off the source:
the bad variants format only `int(self.bio)` / `int(self.bh)` (the
address already held in the handle) and read nothing;
`GenericBioDecoder.__str__` reads `bio['bi_bdev']` and `bio['bi_end_io']`;
`GenericBHDecoder.__str__` reads `bh['b_bdev']` (via the lazy
`block_device` attribute), `bh['b_blocknr']` and `bh['b_size']`. -/
def Decoder.strReads : Decoder → List ReadEvent
  | .badBio _ => []
  | .badBH _ => []
  | .genericBio bio => [.readField bio.addr "bi_bdev", .readField bio.addr "bi_end_io"]
  | .genericBH bh => [.readField bh.addr "b_bdev", .readField bh.addr "b_blocknr",
                      .readField bh.addr "b_size"]
  | .customNext _ _ => []
  | .customEnd _ _ => []

/- The reads performed by each built-in variant's `interpret()`: the base
implementation (inherited by the bad variants and `GenericBioDecoder`)
is `pass`; `GenericBHDecoder.interpret` reads `bh['b_bdev']`. -/
def Decoder.interpretReads : Decoder → List ReadEvent
  | .genericBH bh => [.readField bh.addr "b_bdev"]
  | _ => []

/- ## The lazy-interpretation attribute protocol (`Decoder.__getattr__`)

A Python attribute value as stored in a decoder's instance `__dict__`. -/
inductive PyVal where
  | int (n : Nat)
  | str (s : String)
  deriving DecidableEq, Repr

/- A Python exception escaping an attribute access: the
`AttributeError` raised by `__getattr__`, or a `gdb.NotAvailableError`
propagating out of a memory read inside `interpret()`. -/
inductive PyExc where
  | attributeError
  | notAvailable
  deriving DecidableEq, Repr

/- The observable state of one `Decoder` instance: its instance
`__dict__` (minus the `interpreted` flag, kept as its own field), the
`interpreted` flag, and an instrumentation counter of how many times
`interpret()` has been invoked on this instance. -/
structure AttrState where
  attrs : List (String × PyVal)
  interpreted : Bool
  runs : Nat
  deriving DecidableEq, Repr

/- Lookup in the instance `__dict__`. -/
def lookupAttr : List (String × PyVal) → String → Option PyVal
  | [], _ => none
  | (n, v) :: rest, name => if n = name then some v else lookupAttr rest name

/- The behaviour of a concrete subclass's `interpret()`: given the
current attributes it either returns the populated attributes or raises
(typically `gdb.NotAvailableError` from a memory read). -/
def InterpFn : Type := List (String × PyVal) → Except PyExc (List (String × PyVal))

/- `getattr(self, name)` on an instance whose `interpreted` flag is
true: normal lookup in the instance `__dict__`; on a miss,
`Decoder.__getattr__` runs, sees `self.interpreted`, and raises
`AttributeError`. -/
def getattrInterpreted (s : AttrState) (name : String) :
    Except PyExc PyVal × AttrState :=
  match lookupAttr s.attrs name with
  | some v => (.ok v, s)
  | none => (.error .attributeError, s)

/- `getattr(self, name)` on a `Decoder` instance, translated from
`Decoder.__getattr__`: a populated attribute is returned directly
(normal lookup, `__getattr__` not invoked); on a miss, if
`self.interpreted` is set, raise `AttributeError`; otherwise run
`self.interpret()` — if it raises, the exception propagates and the
`interpreted` flag is NOT set — then set `self.interpreted = True` and
re-run `getattr(self, name)` on the now-interpreted instance. -/
def pythonGetattr (interp : InterpFn) (s : AttrState) (name : String) :
    Except PyExc PyVal × AttrState :=
  match lookupAttr s.attrs name with
  | some v => (.ok v, s)
  | none =>
    if s.interpreted then (.error .attributeError, s)
    else
      match interp s.attrs with
      | .error e => (.error e, { s with runs := s.runs + 1 })
      | .ok attrs2 =>
          getattrInterpreted { attrs := attrs2, interpreted := true,
                               runs := s.runs + 1 } name

/- A sequence of attribute accesses on one instance, threading the
instance state (raised exceptions are caught by the caller and the
accesses continue). -/
def accessSeq (interp : InterpFn) (s : AttrState) : List String → AttrState
  | [] => s
  | n :: rest => accessSeq interp (pythonGetattr interp s n).2 rest

/- ## Decoder construction (`__init__` of each variant)

`Decoder.__init__(self, value)`: ignores `value` and sets
`self.interpreted = False`.  No memory read occurs. -/
def Decoder_init : AttrState × List ReadEvent :=
  ({ attrs := [], interpreted := false, runs := 0 }, [])

/- `BadBHDecoder.__init__(self, bh)`: `super().__init__()` then
`self.bh = bh`. -/
def BadBHDecoder_init (bh : PyVal) : AttrState × List ReadEvent :=
  let base := Decoder_init
  ({ base.1 with attrs := base.1.attrs ++ [("bh", bh)] }, base.2 ++ [])

/- `GenericBHDecoder.__init__(self, bh)`: `super().__init__()` then
`self.bh = bh`. -/
def GenericBHDecoder_init (bh : PyVal) : AttrState × List ReadEvent :=
  let base := Decoder_init
  ({ base.1 with attrs := base.1.attrs ++ [("bh", bh)] }, base.2 ++ [])

/- `BadBioDecoder.__init__(self, bio)`: `super().__init__()` then
`self.bio = bio`. -/
def BadBioDecoder_init (bio : PyVal) : AttrState × List ReadEvent :=
  let base := Decoder_init
  ({ base.1 with attrs := base.1.attrs ++ [("bio", bio)] }, base.2 ++ [])

/- `GenericBioDecoder.__init__(self, bio)`: `super().__init__()` then
`self.bio = bio`. -/
def GenericBioDecoder_init (bio : PyVal) : AttrState × List ReadEvent :=
  let base := Decoder_init
  ({ base.1 with attrs := base.1.attrs ++ [("bio", bio)] }, base.2 ++ [])

/- ## The configuration cache (`CrashConfigCache.decompress_config_buffer`)

The distinct failures the method can raise: the `MissingSymbolError`
when `kernel_config_data` cannot be looked up, and the two `IOError`s
for the missing structural markers. -/
inductive ConfigErr where
  | missingSymbol
  | missingMagicStart
  | missingMagicEnd
  deriving DecidableEq, Repr

def MAGIC_START : List Char := "IKCFG_ST".data

def MAGIC_END : List Char := "IKCFG_ED".data

def GZIP_HEADER_LEN : Nat := 10

/- `read_buf(address, size)` over the `kernel_config_data` region,
with addresses relative to the region start. -/
def readBuf (data : List Char) (off len : Nat) : List Char :=
  (data.drop off).take len

/- `decompress_config_buffer`, translated line by line: `kcd` is the
`kernel_config_data` region when the symbol resolved (`none` models the
`lookup_symbol` miss, raised as `MissingSymbolError`); `inflate` stands
for `zlib.decompress(buf, -15, buf_len)`.  The start marker is read at
the region start; the end marker is read at
`data_addr + data_len - len(MAGIC_END) - 1`; only when both compare
equal is the compressed payload (everything after the start marker and
the 10-byte gzip header, up to `buf_len`) inflated into the config
buffer. -/
def decompress_config_buffer (inflate : List Char → String)
    (kcd : Option (List Char)) : Except ConfigErr String :=
  match kcd with
  | none => .error .missingSymbol
  | some data =>
    let dataLen := data.length
    if readBuf data 0 MAGIC_START.length ≠ MAGIC_START then
      .error .missingMagicStart
    else if readBuf data (dataLen - MAGIC_END.length - 1) MAGIC_END.length
        ≠ MAGIC_END then
      .error .missingMagicEnd
    else
      let bufLen := dataLen - MAGIC_START.length - MAGIC_END.length - GZIP_HEADER_LEN
      .ok (inflate (readBuf data (MAGIC_START.length + GZIP_HEADER_LEN) bufLen))

/- Number of entries of the table carrying the key `k`. -/
def countKey : List (Nat × Factory) → Nat → Nat
  | [], _ => 0
  | (k', _) :: rest, k => (if k' = k then 1 else 0) + countKey rest k

/- The Python-dict invariant: every key occurs at most once. -/
def nodupKeys : List (Nat × Factory) → Bool
  | [] => true
  | (k, _) :: rest => (countKey rest k == 0) && nodupKeys rest

theorem dictLookup_dictInsert_self (d : List (Nat × Factory)) (k : Nat) (v : Factory) :
    dictLookup (dictInsert d k v) k = some v := by
  induction d with
  | nil => simp [dictInsert, dictLookup]
  | cons p rest ih =>
    obtain ⟨k', v'⟩ := p
    by_cases h : k' = k
    · subst h; simp [dictInsert, dictLookup]
    · simp [dictInsert, dictLookup, h, ih]

theorem countKey_dictInsert_ne (d : List (Nat × Factory)) (k k' : Nat) (v : Factory)
    (h : k' ≠ k) : countKey (dictInsert d k v) k' = countKey d k' := by
  induction d with
  | nil => simp [dictInsert, countKey, Ne.symm h]
  | cons p rest ih =>
    obtain ⟨k0, v0⟩ := p
    by_cases h0 : k0 = k
    · subst h0; simp [dictInsert, countKey, Ne.symm h]
    · simp [dictInsert, countKey, h0, ih]

theorem countKey_dictInsert_self (d : List (Nat × Factory)) (k : Nat) (v : Factory)
    (h : nodupKeys d = true) : countKey (dictInsert d k v) k = 1 := by
  induction d with
  | nil => simp [dictInsert, countKey]
  | cons p rest ih =>
    obtain ⟨k0, v0⟩ := p
    simp only [nodupKeys, Bool.and_eq_true, beq_iff_eq] at h
    by_cases h0 : k0 = k
    · subst h0
      simp [dictInsert, countKey, h.1]
    · simp [dictInsert, countKey, h0, ih h.2]

theorem nodupKeys_dictInsert (d : List (Nat × Factory)) (k : Nat) (v : Factory)
    (h : nodupKeys d = true) : nodupKeys (dictInsert d k v) = true := by
  induction d with
  | nil => simp [dictInsert, nodupKeys, countKey]
  | cons p rest ih =>
    obtain ⟨k0, v0⟩ := p
    simp only [nodupKeys, Bool.and_eq_true, beq_iff_eq] at h
    by_cases h0 : k0 = k
    · subst h0
      simp [dictInsert, nodupKeys, h.1, h.2]
    · simp only [dictInsert, if_neg h0, nodupKeys, Bool.and_eq_true, beq_iff_eq]
      exact ⟨by rw [countKey_dictInsert_ne rest k k0 v h0, h.1], ih h.2⟩

theorem decoders_foldRegister_append (sym : GdbSymbol) (pre : List (String × Factory))
    (nm : String) (f : Factory) (st : RegState) :
    ((pre ++ [(nm, f)]).foldl (fun s p => register_decoder s (.symbol sym) p.2) st).decoders
      = dictInsert
          ((pre.foldl (fun s p => register_decoder s (.symbol sym) p.2) st).decoders)
          sym.value.address f := by
  simp [List.foldl_append, register_decoder, endioToKey]

theorem nodupKeys_foldRegister (sym : GdbSymbol) (l : List (String × Factory)) :
    ∀ st : RegState, nodupKeys st.decoders = true →
    nodupKeys ((l.foldl (fun s p => register_decoder s (.symbol sym) p.2) st).decoders)
      = true := by
  induction l with
  | nil => intro st h; simpa using h
  | cons p rest ih =>
    intro st h
    simp only [List.foldl_cons]
    exact ih _ (by simpa [register_decoder, endioToKey] using
      nodupKeys_dictInsert st.decoders sym.value.address p.2 h)

/-- C1: for every resolved integer dispatch key `k` and decoder factory
`f`, looking up `k` in `_decoders` after `register_decoder(k, f)` returns
`f`; and if a factory `g` was previously registered under the same key,
a later `register_decoder(k, f)` replaces `g` with `f` — last
registration wins, with no conflict detection or warning. -/
theorem claim_C1_registry_last_write_wins (st : RegState) (k : Nat) (f g : Factory) :
    dictLookup (register_decoder st (.int k) f).decoders k = some f ∧
    dictLookup (register_decoder (register_decoder st (.int k) g) (.int k) f).decoders k
      = some f := by
  constructor <;>
    simp [register_decoder, endioToKey, dictLookup_dictInsert_self]

/-- C7: for every registration whose key is already resolvable,
`register_decoder` normalises the key before insertion: a `gdb.Symbol`
is converted to its value and a `gdb.Value` to the integer address of
the resolved symbol's value (the function's entry address), and the
table entry is stored under that concrete integer address. -/
theorem claim_C7_key_normalisation (st : RegState) (f : Factory) (sym : GdbSymbol)
    (v : GdbValue) (n : Nat) :
    (register_decoder st (.symbol sym) f).decoders
        = dictInsert st.decoders sym.value.address f ∧
    (register_decoder st (.value v) f).decoders
        = dictInsert st.decoders v.address f ∧
    (register_decoder st (.int n) f).decoders
        = dictInsert st.decoders n f ∧
    dictLookup (register_decoder st (.symbol sym) f).decoders sym.value.address
        = some f ∧
    dictLookup (register_decoder st (.value v) f).decoders v.address = some f := by
  refine ⟨rfl, rfl, rfl, ?_, ?_⟩ <;>
    simp [register_decoder, endioToKey, dictLookup_dictInsert_self]

/-- C6: for every registration under a symbolic name (or a list of alias
names), `_decoders` gains no entry until the symbol-resolution
notification for that name fires; once the notification fires exactly
once with a concrete address, the table contains exactly one entry for
that resolved address, mapping to the registered factory. -/
theorem claim_C6_deferred_symbolic_registration (st : RegState) (nm : String)
    (al : List String) (f : Factory) (sym : GdbSymbol)
    (h : nodupKeys st.decoders = true) :
    (register_decoder st (.name nm) f).decoders = st.decoders ∧
    (register_decoder st (.names al) f).decoders = st.decoders ∧
    dictLookup (fireSymbol (register_decoder st (.name nm) f) nm sym).decoders
        sym.value.address = some f ∧
    countKey (fireSymbol (register_decoder st (.name nm) f) nm sym).decoders
        sym.value.address = 1 := by
  have hpend : (register_decoder st (.name nm) f).pending = st.pending ++ [(nm, f)] := rfl
  have hdec : (register_decoder st (.name nm) f).decoders = st.decoders := rfl
  have hfilter :
      ((st.pending ++ [(nm, f)]).filter (fun p => p.1 == nm))
        = st.pending.filter (fun p => p.1 == nm) ++ [(nm, f)] := by
    simp [List.filter_append]
  have hfire :
      (fireSymbol (register_decoder st (.name nm) f) nm sym).decoders
        = dictInsert
            (((st.pending.filter (fun p => p.1 == nm)).foldl
                (fun s p => register_decoder s (.symbol sym) p.2)
                { decoders := st.decoders,
                  pending := (st.pending ++ [(nm, f)]).filter
                    (fun p => !(p.1 == nm)) }).decoders)
            sym.value.address f := by
    rw [fireSymbol, hpend, hdec, hfilter]
    exact decoders_foldRegister_append sym _ nm f _
  have hnodup :
      nodupKeys (((st.pending.filter (fun p => p.1 == nm)).foldl
          (fun s p => register_decoder s (.symbol sym) p.2)
          { decoders := st.decoders,
            pending := (st.pending ++ [(nm, f)]).filter
              (fun p => !(p.1 == nm)) }).decoders) = true :=
    nodupKeys_foldRegister sym _ _ h
  refine ⟨hdec, rfl, ?_, ?_⟩
  · rw [hfire]; exact dictLookup_dictInsert_self _ _ _
  · rw [hfire]; exact countKey_dictInsert_self _ _ _ hnodup

/-- Witness for C6: registering under the name `"submit_end_io"` into an
empty registry leaves the table empty; after the resolution notification
fires with address `0x1000`, looking up `0x1000` returns the factory and
the table has exactly one entry for it. -/
theorem claim_C6_witness :
    (register_decoder ⟨[], []⟩ (.name "submit_end_io")
        (fun _ => Decoder.customEnd "F" false)).decoders = [] ∧
    dictLookup
        (fireSymbol
          (register_decoder ⟨[], []⟩ (.name "submit_end_io")
            (fun _ => Decoder.customEnd "F" false))
          "submit_end_io" ⟨⟨0x1000⟩⟩).decoders 0x1000
      = some (fun _ => Decoder.customEnd "F" false) ∧
    countKey
        (fireSymbol
          (register_decoder ⟨[], []⟩ (.name "submit_end_io")
            (fun _ => Decoder.customEnd "F" false))
          "submit_end_io" ⟨⟨0x1000⟩⟩).decoders 0x1000 = 1 := by
  obtain ⟨h1, _, h3, h4⟩ :=
    claim_C6_deferred_symbolic_registration ⟨[], []⟩ "submit_end_io" []
      (fun _ => Decoder.customEnd "F" false) ⟨⟨0x1000⟩⟩ rfl
  exact ⟨h1, h3, h4⟩

theorem walkFrom_cons (d : Decoder) : ∃ t, walkFrom d = d :: t := by
  cases d <;> exact ⟨_, rfl⟩

theorem walkFrom_length (d : Decoder) : (walkFrom d).length = chainDepth d + 1 := by
  induction d with
  | badBio bio => rfl
  | genericBio bio => rfl
  | badBH bh => rfl
  | genericBH bh => rfl
  | customNext desc d ih => simp [walkFrom, chainDepth, ih]
  | customEnd desc stop => rfl

theorem walkLinked_walkFrom (d : Decoder) : walkLinked (walkFrom d) = true := by
  induction d with
  | customNext desc d ih =>
      obtain ⟨t, ht⟩ := walkFrom_cons d
      rw [ht] at ih
      show walkLinked (Decoder.customNext desc d :: walkFrom d) = true
      rw [ht]
      simp [walkLinked, Decoder.yieldsNext, ih]
  | badBio bio => rfl
  | genericBio bio => rfl
  | badBH bh => rfl
  | genericBH bh => rfl
  | customEnd desc stop => rfl

/-- C2: for every starting bio heading a chain of depth N (N successive
decoders whose `__next__` yields a further decoder before one yields
none), `for_each_bio_in_stack` yields exactly N+1 decoders and
terminates; it always yields at least one decoder (possibly an
invalid-object one), and — per `walkLinked` — each yielded decoder after
the first is exactly what the previous one yielded from `__next__`, so
the walk never goes past the first decoder whose `__next__` returns
none.  The walk itself is a total function: a returned decoder continues
it, while a returned `None` or a raised `StopIteration` only ends it. -/
theorem claim_C2_walk_yields_depth_plus_one (tbl : List (Nat × Factory)) (bio : BioVal) :
    (for_each_bio_in_stack tbl bio).length = chainDepth (decode_bio tbl bio) + 1 ∧
    1 ≤ (for_each_bio_in_stack tbl bio).length ∧
    walkLinked (for_each_bio_in_stack tbl bio) = true := by
  refine ⟨walkFrom_length _, ?_, walkLinked_walkFrom _⟩
  rw [for_each_bio_in_stack, walkFrom_length]
  omega

/-- C10: for every bio whose decoder is the generic/undecoded decoder or
an invalid-object decoder, that decoder is a terminal chain node: its
`__next__` is the inherited base implementation that yields no further
decoder, so `for_each_bio_in_stack` starting at such a bio yields
exactly that one decoder and stops. -/
theorem claim_C10_fallback_decoders_are_terminal (tbl : List (Nat × Factory))
    (bio : BioVal) (k : Nat)
    (h : bio.biEndIO = .notAvailable ∨
         (bio.biEndIO = .ok k ∧ dictLookup tbl k = none)) :
    Decoder.yieldsNext (decode_bio tbl bio) = none ∧
    for_each_bio_in_stack tbl bio = [decode_bio tbl bio] := by
  rcases h with h | ⟨h1, h2⟩
  · simp [decode_bio, h, for_each_bio_in_stack, walkFrom, Decoder.yieldsNext]
  · simp [decode_bio, h1, h2, for_each_bio_in_stack, walkFrom, Decoder.yieldsNext]

/-- Witness for C10: a bio at address 1 whose `bi_end_io` read fails
decodes to a terminal decoder, and the walk yields it alone; the same
for a bio at address 2 with a readable key 7 absent from the table. -/
theorem claim_C10_witness :
    (Decoder.yieldsNext (decode_bio [] ⟨1, .notAvailable, "", ""⟩) = none ∧
     for_each_bio_in_stack [] ⟨1, .notAvailable, "", ""⟩
        = [decode_bio [] ⟨1, .notAvailable, "", ""⟩]) ∧
    (Decoder.yieldsNext (decode_bio [] ⟨2, .ok 7, "sda", "0x7"⟩) = none ∧
     for_each_bio_in_stack [] ⟨2, .ok 7, "sda", "0x7"⟩
        = [decode_bio [] ⟨2, .ok 7, "sda", "0x7"⟩]) :=
  ⟨claim_C10_fallback_decoders_are_terminal [] ⟨1, .notAvailable, "", ""⟩ 0
      (Or.inl rfl),
   claim_C10_fallback_decoders_are_terminal [] ⟨2, .ok 7, "sda", "0x7"⟩ 7
      (Or.inr ⟨rfl, rfl⟩)⟩

theorem strData_append (a b : String) : (a ++ b).data = a.data ++ b.data := by
  cases a; cases b; rfl

theorem startsWithSeq_append_self (p t : List Char) :
    startsWithSeq (p ++ t) p = true := by
  induction p with
  | nil => cases t <;> rfl
  | cons a as ih => simp [startsWithSeq, ih]

theorem hasSubSeq_of_startsWith (l sub : List Char)
    (h : startsWithSeq l sub = true) : hasSubSeq sub l = true := by
  cases l with
  | nil =>
    cases sub with
    | nil => rfl
    | cons b bs => exact absurd h (by simp [startsWithSeq])
  | cons a t => simp [hasSubSeq, h]

theorem hasSubSeq_append_right (sub l r : List Char)
    (h : hasSubSeq sub r = true) : hasSubSeq sub (l ++ r) = true := by
  induction l with
  | nil => simpa using h
  | cons a t ih => simp [hasSubSeq, ih]

theorem startsWithSeq_extend (l p r : List Char)
    (h : startsWithSeq l p = true) : startsWithSeq (l ++ r) p = true := by
  induction p generalizing l with
  | nil => cases l <;> cases r <;> rfl
  | cons b bs ih =>
    cases l with
    | nil => exact absurd h (by simp [startsWithSeq])
    | cons a t =>
      simp only [startsWithSeq, Bool.and_eq_true] at h
      simp [startsWithSeq, h.1, ih t h.2]

theorem hasSubSeq_append_left (sub l r : List Char)
    (h : hasSubSeq sub l = true) : hasSubSeq sub (l ++ r) = true := by
  induction l with
  | nil =>
    simp only [hasSubSeq, List.isEmpty_iff] at h
    subst h
    cases r with
    | nil => rfl
    | cons a t => simp [hasSubSeq, startsWithSeq]
  | cons a t ih =>
    simp only [hasSubSeq, Bool.or_eq_true] at h
    rcases h with h | h
    · simp only [List.cons_append, hasSubSeq, Bool.or_eq_true]
      exact Or.inl (startsWithSeq_extend _ _ _ h)
    · simp only [List.cons_append, hasSubSeq, Bool.or_eq_true]
      exact Or.inr (ih h)

theorem hasSubStr_self_append (pre t : String) :
    hasSubStr (pre ++ t) pre = true := by
  rw [hasSubStr, strData_append]
  exact hasSubSeq_of_startsWith _ _ (startsWithSeq_append_self _ _)

theorem hasSubStr_append_left (a b sub : String)
    (h : hasSubStr a sub = true) : hasSubStr (a ++ b) sub = true := by
  rw [hasSubStr, strData_append]
  exact hasSubSeq_append_left _ _ _ h

theorem hasSubStr_append_right (a b sub : String)
    (h : hasSubStr b sub = true) : hasSubStr (a ++ b) sub = true := by
  rw [hasSubStr, strData_append]
  exact hasSubSeq_append_right _ _ _ h

/-- C4: for every object whose dispatch-key read fails with
`gdb.NotAvailableError`, `decode_bio` (resp. `decode_bh`) returns an
invalid-object decoder (`BadBioDecoder` resp. `BadBHDecoder`) whose
`__str__` contains the object's address and the invalidity marker,
whose `__next__` yields no further decoder, and which performs no
further memory reads (neither its `__str__` nor its `interpret()` reads
any field). -/
theorem claim_C4_unavailable_key_gives_invalid_decoder
    (tbl : List (Nat × Factory)) (bio : BioVal) (bh : BHVal)
    (hbio : bio.biEndIO = .notAvailable) (hbh : bh.bEndIO = .notAvailable) :
    decode_bio tbl bio = .badBio bio ∧
    decode_bh tbl bh = .badBH bh ∧
    hasSubStr (Decoder.descr (.badBio bio)) (hexStr bio.addr) = true ∧
    hasSubStr (Decoder.descr (.badBio bio)) "invalid" = true ∧
    hasSubStr (Decoder.descr (.badBH bh)) (hexStr bh.addr) = true ∧
    hasSubStr (Decoder.descr (.badBH bh)) "invalid" = true ∧
    Decoder.yieldsNext (.badBio bio) = none ∧
    Decoder.yieldsNext (.badBH bh) = none ∧
    Decoder.strReads (.badBio bio) = [] ∧
    Decoder.strReads (.badBH bh) = [] ∧
    Decoder.interpretReads (.badBio bio) = [] ∧
    Decoder.interpretReads (.badBH bh) = [] := by
  refine ⟨by simp [decode_bio, hbio], by simp [decode_bh, hbh],
    hasSubStr_self_append _ _, ?_, hasSubStr_self_append _ _, ?_,
    rfl, rfl, rfl, rfl, rfl, rfl⟩
  · exact hasSubStr_append_right _ _ _ (by decide)
  · exact hasSubStr_append_right _ _ _ (by decide)

/-- Witness for C4: a bio at address 0xdead and a buffer_head at address
0xbeef whose end_io reads fail decode to the invalid-object decoders
with the claimed description, terminal `__next__`, and no reads. -/
theorem claim_C4_witness :
    decode_bio [] ⟨0xdead, .notAvailable, "", ""⟩
        = .badBio ⟨0xdead, .notAvailable, "", ""⟩ ∧
    decode_bh [] ⟨0xbeef, .notAvailable, "", 0, 0⟩
        = .badBH ⟨0xbeef, .notAvailable, "", 0, 0⟩ ∧
    hasSubStr (Decoder.descr (.badBio ⟨0xdead, .notAvailable, "", ""⟩))
        (hexStr 0xdead) = true ∧
    hasSubStr (Decoder.descr (.badBio ⟨0xdead, .notAvailable, "", ""⟩))
        "invalid" = true ∧
    hasSubStr (Decoder.descr (.badBH ⟨0xbeef, .notAvailable, "", 0, 0⟩))
        (hexStr 0xbeef) = true ∧
    hasSubStr (Decoder.descr (.badBH ⟨0xbeef, .notAvailable, "", 0, 0⟩))
        "invalid" = true ∧
    Decoder.yieldsNext (.badBio ⟨0xdead, .notAvailable, "", ""⟩) = none ∧
    Decoder.yieldsNext (.badBH ⟨0xbeef, .notAvailable, "", 0, 0⟩) = none ∧
    Decoder.strReads (.badBio ⟨0xdead, .notAvailable, "", ""⟩) = [] ∧
    Decoder.strReads (.badBH ⟨0xbeef, .notAvailable, "", 0, 0⟩) = [] ∧
    Decoder.interpretReads (.badBio ⟨0xdead, .notAvailable, "", ""⟩) = [] ∧
    Decoder.interpretReads (.badBH ⟨0xbeef, .notAvailable, "", 0, 0⟩) = [] :=
  claim_C4_unavailable_key_gives_invalid_decoder []
    ⟨0xdead, .notAvailable, "", ""⟩ ⟨0xbeef, .notAvailable, "", 0, 0⟩ rfl rfl

/-- C5: for every object whose dispatch key is readable but absent from
`_decoders`, `decode_bio` (resp. `decode_bh`) does not raise for the
missing key — the `KeyError` is absorbed and a generic/undecoded decoder
(`GenericBioDecoder` resp. `GenericBHDecoder`) is returned — and that
decoder's `__str__` contains the object's address and an explicit
"undecoded" marker. -/
theorem claim_C5_unregistered_key_gives_generic_decoder
    (tbl : List (Nat × Factory)) (bio : BioVal) (bh : BHVal) (kb kh : Nat)
    (hbio : bio.biEndIO = .ok kb) (hlb : dictLookup tbl kb = none)
    (hbh : bh.bEndIO = .ok kh) (hlh : dictLookup tbl kh = none) :
    decode_bio tbl bio = .genericBio bio ∧
    decode_bh tbl bh = .genericBH bh ∧
    hasSubStr (Decoder.descr (.genericBio bio)) (hexStr bio.addr) = true ∧
    hasSubStr (Decoder.descr (.genericBio bio)) "undecoded" = true ∧
    hasSubStr (Decoder.descr (.genericBH bh)) (hexStr bh.addr) = true ∧
    hasSubStr (Decoder.descr (.genericBH bh)) "undecoded" = true := by
  refine ⟨by simp [decode_bio, hbio, hlb], by simp [decode_bh, hbh, hlh],
    ?_, ?_, ?_, ?_⟩
  · show hasSubStr (hexStr bio.addr ++ " bio: undecoded bio on " ++
        bio.biBdevName ++ " (" ++ bio.biEndIOStr ++ ")") (hexStr bio.addr) = true
    exact hasSubStr_append_left _ _ _ (hasSubStr_append_left _ _ _
      (hasSubStr_append_left _ _ _ (hasSubStr_append_left _ _ _
        (hasSubStr_self_append _ _))))
  · show hasSubStr (hexStr bio.addr ++ " bio: undecoded bio on " ++
        bio.biBdevName ++ " (" ++ bio.biEndIOStr ++ ")") "undecoded" = true
    exact hasSubStr_append_left _ _ _ (hasSubStr_append_left _ _ _
      (hasSubStr_append_left _ _ _ (hasSubStr_append_left _ _ _
        (hasSubStr_append_right _ _ _ (by decide)))))
  · show hasSubStr (hexStr bh.addr ++ " buffer_head: for dev " ++
        bh.bBdevName ++ ", block " ++ toString bh.bBlocknr ++ ", size " ++
        toString bh.bSize ++ " (undecoded)") (hexStr bh.addr) = true
    exact hasSubStr_append_left _ _ _ (hasSubStr_append_left _ _ _
      (hasSubStr_append_left _ _ _ (hasSubStr_append_left _ _ _
        (hasSubStr_append_left _ _ _ (hasSubStr_append_left _ _ _
          (hasSubStr_self_append _ _))))))
  · show hasSubStr (hexStr bh.addr ++ " buffer_head: for dev " ++
        bh.bBdevName ++ ", block " ++ toString bh.bBlocknr ++ ", size " ++
        toString bh.bSize ++ " (undecoded)") "undecoded" = true
    exact hasSubStr_append_right _ _ _ (by decide)

/-- Witness for C5 (end-to-end scenario A): a bio at address 0xdead with
readable dispatch key 0xdead and an empty registry decodes to the
generic decoder whose description contains "undecoded"; same for a
buffer_head at address 0x2000 with key 9. -/
theorem claim_C5_witness :
    decode_bio [] ⟨0xdead, .ok 0xdead, "sda", "0xdead"⟩
        = .genericBio ⟨0xdead, .ok 0xdead, "sda", "0xdead"⟩ ∧
    decode_bh [] ⟨0x2000, .ok 9, "sdb", 3, 512⟩
        = .genericBH ⟨0x2000, .ok 9, "sdb", 3, 512⟩ ∧
    hasSubStr (Decoder.descr (.genericBio ⟨0xdead, .ok 0xdead, "sda", "0xdead"⟩))
        (hexStr 0xdead) = true ∧
    hasSubStr (Decoder.descr (.genericBio ⟨0xdead, .ok 0xdead, "sda", "0xdead"⟩))
        "undecoded" = true ∧
    hasSubStr (Decoder.descr (.genericBH ⟨0x2000, .ok 9, "sdb", 3, 512⟩))
        (hexStr 0x2000) = true ∧
    hasSubStr (Decoder.descr (.genericBH ⟨0x2000, .ok 9, "sdb", 3, 512⟩))
        "undecoded" = true :=
  claim_C5_unregistered_key_gives_generic_decoder []
    ⟨0xdead, .ok 0xdead, "sda", "0xdead"⟩ ⟨0x2000, .ok 9, "sdb", 3, 512⟩
    0xdead 9 rfl rfl rfl rfl

theorem pythonGetattr_invariant (interp : InterpFn)
    (hok : ∀ a, ∃ r, interp a = Except.ok r) (s : AttrState) (n : String)
    (h1 : s.runs ≤ 1) (h2 : s.interpreted = false → s.runs = 0) :
    (pythonGetattr interp s n).2.runs ≤ 1 ∧
    ((pythonGetattr interp s n).2.interpreted = false →
      (pythonGetattr interp s n).2.runs = 0) := by
  cases hl : lookupAttr s.attrs n with
  | some v =>
    simp only [pythonGetattr, hl]
    exact ⟨h1, h2⟩
  | none =>
    by_cases hi : s.interpreted = true
    · simp only [pythonGetattr, hl, hi, if_true]
      exact ⟨h1, fun h => absurd h (by simp)⟩
    · have hif : s.interpreted = false := by simpa using hi
      obtain ⟨r, hr⟩ := hok s.attrs
      have h0 : s.runs = 0 := h2 hif
      cases hl2 : lookupAttr r n <;>
        simp [pythonGetattr, hl, hif, hr, getattrInterpreted, hl2, h0]

theorem accessSeq_invariant (interp : InterpFn)
    (hok : ∀ a, ∃ r, interp a = Except.ok r) (names : List String) :
    ∀ s : AttrState, s.runs ≤ 1 → (s.interpreted = false → s.runs = 0) →
    (accessSeq interp s names).runs ≤ 1 := by
  induction names with
  | nil =>
    intro s h1 _
    simpa [accessSeq] using h1
  | cons n rest ih =>
    intro s h1 h2
    simp only [accessSeq]
    obtain ⟨g1, g2⟩ := pythonGetattr_invariant interp hok s n h1 h2
    exact ih _ g1 g2

/-- C3 (amended): provided `interpret()` completes without raising,
it runs at most once per Decoder instance regardless of how many
attribute accesses miss: starting from a fresh instance, any sequence of
attribute accesses invokes `interpret()` at most once; the first access
to a field not already populated invokes it and marks the instance
interpreted (incrementing the run count exactly once); and once the
instance is marked interpreted, an access to a field still undefined
raises `AttributeError` without changing the instance (so `interpret()`
is not re-run and no null is returned).  (The unamended claim fails when
`interpret()` itself raises — e.g. a `gdb.NotAvailableError` from a
memory read — because `self.interpreted` is only set after
`self.interpret()` returns, so a later access runs it again; see the
counterexample.) -/
theorem claim_C3_interpret_at_most_once_amended (interp : InterpFn)
    (attrs0 : List (String × PyVal)) (names : List String)
    (s : AttrState) (name : String)
    (hok : ∀ a, ∃ r, interp a = Except.ok r) :
    (accessSeq interp ⟨attrs0, false, 0⟩ names).runs ≤ 1 ∧
    (s.interpreted = true → (pythonGetattr interp s name).2 = s) ∧
    (s.interpreted = true → lookupAttr s.attrs name = none →
      (pythonGetattr interp s name).1 = .error .attributeError) ∧
    (s.interpreted = false → lookupAttr s.attrs name = none →
      (pythonGetattr interp s name).2.interpreted = true ∧
      (pythonGetattr interp s name).2.runs = s.runs + 1) := by
  refine ⟨accessSeq_invariant interp hok names _ (by simp) (fun _ => rfl),
    ?_, ?_, ?_⟩
  · intro hi
    cases hl : lookupAttr s.attrs name <;> simp [pythonGetattr, hl, hi]
  · intro hi hl
    simp [pythonGetattr, hl, hi]
  · intro hif hl
    obtain ⟨r, hr⟩ := hok s.attrs
    cases hl2 : lookupAttr r name <;>
      simp [pythonGetattr, hl, hif, hr, getattrInterpreted, hl2]

/-- Counterexample to C3 as stated: when `interpret()` raises (here a
`gdb.NotAvailableError`, as `GenericBHDecoder.interpret` does when
`bh['b_bdev']` is unreadable), `Decoder.__getattr__` never reaches
`self.interpreted = True`, so a second access to the same missing
attribute invokes `interpret()` again: two accesses produce two runs,
refuting "interpret() runs at most once regardless of how many attribute
accesses miss". -/
theorem claim_C3_counterexample :
    (accessSeq (fun _ => Except.error PyExc.notAvailable)
      ⟨[], false, 0⟩ ["block_device", "block_device"]).runs = 2 := rfl

/-- Witness for the amended C3: with an `interpret()` that populates
`x` and returns normally, three accesses run it at most once; on an
interpreted instance an access to the missing `y` raises
`AttributeError` and leaves the instance unchanged; and a first missing
access on a fresh instance marks it interpreted with exactly one run. -/
theorem claim_C3_witness :
    (accessSeq (fun a => Except.ok (("x", PyVal.int 3) :: a)) ⟨[], false, 0⟩
        ["x", "x", "y"]).runs ≤ 1 ∧
    (pythonGetattr (fun a => Except.ok (("x", PyVal.int 3) :: a))
        ⟨[("x", PyVal.int 3)], true, 1⟩ "y").2 = ⟨[("x", PyVal.int 3)], true, 1⟩ ∧
    (pythonGetattr (fun a => Except.ok (("x", PyVal.int 3) :: a))
        ⟨[("x", PyVal.int 3)], true, 1⟩ "y").1 = .error .attributeError ∧
    (pythonGetattr (fun a => Except.ok (("x", PyVal.int 3) :: a))
        ⟨[], false, 0⟩ "x").2.interpreted = true ∧
    (pythonGetattr (fun a => Except.ok (("x", PyVal.int 3) :: a))
        ⟨[], false, 0⟩ "x").2.runs = 0 + 1 := by
  obtain ⟨h1, h2, h3, _⟩ :=
    claim_C3_interpret_at_most_once_amended
      (fun a => Except.ok (("x", PyVal.int 3) :: a))
      [] ["x", "x", "y"] ⟨[("x", PyVal.int 3)], true, 1⟩ "y"
      (fun a => ⟨_, rfl⟩)
  obtain ⟨_, _, _, h4⟩ :=
    claim_C3_interpret_at_most_once_amended
      (fun a => Except.ok (("x", PyVal.int 3) :: a))
      [] [] ⟨[], false, 0⟩ "x" (fun a => ⟨_, rfl⟩)
  exact ⟨h1, h2 rfl, h3 rfl rfl, (h4 rfl rfl).1, (h4 rfl rfl).2⟩

/-- C8: for every Decoder variant, construction from a raw object handle
performs no memory-image reads: `Decoder.__init__` only initialises the
`interpreted` flag to false, and each concrete variant's `__init__` only
additionally stores the handle — the read-event list of every
constructor is empty. -/
theorem claim_C8_construction_reads_nothing (v : PyVal) :
    Decoder_init = ({ attrs := [], interpreted := false, runs := 0 }, []) ∧
    BadBHDecoder_init v
        = ({ attrs := [("bh", v)], interpreted := false, runs := 0 }, []) ∧
    GenericBHDecoder_init v
        = ({ attrs := [("bh", v)], interpreted := false, runs := 0 }, []) ∧
    BadBioDecoder_init v
        = ({ attrs := [("bio", v)], interpreted := false, runs := 0 }, []) ∧
    GenericBioDecoder_init v
        = ({ attrs := [("bio", v)], interpreted := false, runs := 0 }, []) :=
  ⟨rfl, rfl, rfl, rfl, rfl⟩

/-- C9: in the configuration-cache collaborator, decompressing the
kernel configuration blob fails with a distinct, explicit error (not
silently) whenever either expected structural magic marker — the start
marker `IKCFG_ST` read at the start of `kernel_config_data`, or the end
marker `IKCFG_ED` read at offset `data_len - len(MAGIC_END) - 1` — is
missing; the config buffer is produced exactly when both markers are
present. -/
theorem claim_C9_config_magic_markers (inflate : List Char → String)
    (data : List Char) :
    decompress_config_buffer inflate none = .error .missingSymbol ∧
    (readBuf data 0 MAGIC_START.length ≠ MAGIC_START →
      decompress_config_buffer inflate (some data) = .error .missingMagicStart) ∧
    (readBuf data 0 MAGIC_START.length = MAGIC_START →
     readBuf data (data.length - MAGIC_END.length - 1) MAGIC_END.length
        ≠ MAGIC_END →
      decompress_config_buffer inflate (some data) = .error .missingMagicEnd) ∧
    (readBuf data 0 MAGIC_START.length = MAGIC_START →
     readBuf data (data.length - MAGIC_END.length - 1) MAGIC_END.length
        = MAGIC_END →
      decompress_config_buffer inflate (some data)
        = .ok (inflate (readBuf data (MAGIC_START.length + GZIP_HEADER_LEN)
            (data.length - MAGIC_START.length - MAGIC_END.length
              - GZIP_HEADER_LEN)))) ∧
    ((∃ s, decompress_config_buffer inflate (some data) = .ok s) ↔
      (readBuf data 0 MAGIC_START.length = MAGIC_START ∧
       readBuf data (data.length - MAGIC_END.length - 1) MAGIC_END.length
         = MAGIC_END)) := by
  refine ⟨rfl, ?_, ?_, ?_, ?_⟩
  · intro h
    simp [decompress_config_buffer, h]
  · intro h1 h2
    simp [decompress_config_buffer, h1, h2]
  · intro h1 h2
    simp [decompress_config_buffer, h1, h2]
  · constructor
    · rintro ⟨s, hs⟩
      by_cases h1 : readBuf data 0 MAGIC_START.length = MAGIC_START
      · by_cases h2 : readBuf data (data.length - MAGIC_END.length - 1)
            MAGIC_END.length = MAGIC_END
        · exact ⟨h1, h2⟩
        · simp [decompress_config_buffer, h1, h2] at hs
      · simp [decompress_config_buffer, h1] at hs
    · rintro ⟨h1, h2⟩
      refine ⟨inflate (readBuf data (MAGIC_START.length + GZIP_HEADER_LEN)
        (data.length - MAGIC_START.length - MAGIC_END.length
          - GZIP_HEADER_LEN)), ?_⟩
      simp [decompress_config_buffer, h1, h2]

/-- Witness for C9: a one-byte region fails with the missing-start
error; a region whose start marker is right but whose end slot holds
junk fails with the missing-end error; a well-formed region (start
marker, 10 header bytes, payload overlapping the end slot, end marker,
one trailing byte) produces the inflated config buffer. -/
theorem claim_C9_witness :
    decompress_config_buffer (fun _ => "CONFIG_X=y") (some ['a'])
        = .error .missingMagicStart ∧
    decompress_config_buffer (fun _ => "CONFIG_X=y")
        (some ("IKCFG_ST".data ++ List.replicate 19 'z'))
        = .error .missingMagicEnd ∧
    decompress_config_buffer (fun _ => "CONFIG_X=y")
        (some ("IKCFG_ST".data ++ List.replicate 10 'z' ++ "IKCFG_ED".data
          ++ ['q']))
        = .ok "CONFIG_X=y" := by
  obtain ⟨_, hA, _, _, _⟩ :=
    claim_C9_config_magic_markers (fun _ => "CONFIG_X=y") ['a']
  obtain ⟨_, _, hB, _, _⟩ :=
    claim_C9_config_magic_markers (fun _ => "CONFIG_X=y")
      ("IKCFG_ST".data ++ List.replicate 19 'z')
  obtain ⟨_, _, _, hC, _⟩ :=
    claim_C9_config_magic_markers (fun _ => "CONFIG_X=y")
      ("IKCFG_ST".data ++ List.replicate 10 'z' ++ "IKCFG_ED".data ++ ['q'])
  exact ⟨hA (by decide), hB (by decide) (by decide),
    hC (by decide) (by decide)⟩
